import Mathlib

/-!
Shallow embedding of the core analysis engine of `src/lotto_analyzer.py`
(the helpers `get_row_numbers`, `get_next_numbers_list`, the two engines
`analyze_patterns` and `analyze_splits`, and the ranked selection done by
`Counter.most_common` in the main flow), together with theorems settling
the frozen claims about it.

Modelling conventions:
* numbers are `Int`;
* a cleaned dataframe row is a `Row` (primary columns `N1..Nk` as `nums`,
  the `Bonus` column as `bonus`); whether the dataframe has a `Bonus`
  column at all is the flag `hasBonus` of `DataFrame` (in pandas,
  `'Bonus' in df.columns` and `'Bonus' in row` agree for every row of the
  frame, so one flag models both tests);
* Python's `collections.Counter` is an association list in insertion
  order (`Counter.incr` bumps an existing key in place and appends a new
  key at the end, exactly like `Counter.update`'s per-element operation);
  `most_common k` is a stable sort by count descending followed by
  `take k`, matching the documented behaviour of `Counter.most_common`
  (elements with equal counts in first-encountered order);
* Python's stable `sorted` over integers is `List.insertionSort (· ≤ ·)`
  (over `Int`, equal elements are identical, so any ≤-sort agrees with it);
* the dict `{t: Counter() for t in top_targets}` is an association list
  with first-occurrence keys (`dictInit`).
-/

namespace Lotto

/-- The `game_type` radio value: `"SA Daily Lotto (5 Numbers)"` (variant A)
or `"UK 49s (6 + Bonus)"` (variant B). -/
inductive GameType where
  | saDaily
  | uk49
deriving DecidableEq, Repr

/-- One cleaned dataframe row: the primary number columns `N1..Nk` in order,
and the value of the `Bonus` column (meaningful only when the frame has one). -/
structure Row where
  nums : List Int
  bonus : Int
deriving DecidableEq, Repr, Inhabited

/-- A cleaned dataframe: whether a `Bonus` column is present, and the rows
in chronological order. -/
structure DataFrame where
  hasBonus : Bool
  rows : List Row
deriving DecidableEq, Repr

/-- `match_threshold = 3` from `analyze_patterns` / `analyze_splits`. -/
def match_threshold : Nat := 3

/-- `get_row_numbers(row, game_type)` (lines 41-49): the set of numbers of a
row; five primaries for SA Daily, six primaries plus the bonus (when the
`Bonus` column exists) for UK 49s. -/
def get_row_numbers (hasBonus : Bool) (row : Row) (gt : GameType) : Finset Int :=
  match gt with
  | GameType.saDaily => (row.nums.take 5).toFinset
  | GameType.uk49 =>
      if hasBonus then insert row.bonus (row.nums.take 6).toFinset
      else (row.nums.take 6).toFinset

/-- `get_next_numbers_list(df, index, game_type)` (lines 51-59): the sorted
primary numbers of the row after `index`, or `[]` when there is none.
The bonus is excluded in both variants. -/
def get_next_numbers_list (df : DataFrame) (index : Nat) (gt : GameType) : List Int :=
  if index + 1 < df.rows.length then
    let row := df.rows.getD (index + 1) default
    match gt with
    | GameType.saDaily => List.insertionSort (· ≤ ·) (row.nums.take 5)
    | GameType.uk49 => List.insertionSort (· ≤ ·) (row.nums.take 6)
  else []

/-- The intersection condition shared by both engines (lines 76 and 102):
`len(current_set.intersection(row_set)) >= match_threshold`. -/
def intersectionMatch (hasBonus : Bool) (current_numbers : List Int) (row : Row)
    (gt : GameType) : Bool :=
  decide (match_threshold ≤ (current_numbers.toFinset ∩ get_row_numbers hasBonus row gt).card)

/-- The bonus condition shared by both engines (lines 81-83 and 103-104):
UK 49s, `len(current_numbers) > 6`, the frame has a `Bonus` column, and the
row's bonus equals `current_numbers[-1]`. -/
def bonusMatch (df : DataFrame) (current_numbers : List Int) (row : Row)
    (gt : GameType) : Bool :=
  decide (gt = GameType.uk49 ∧ 6 < current_numbers.length ∧ df.hasBonus = true ∧
    row.bonus = current_numbers.getLastD 0)

/-- The `is_match` boolean of `analyze_splits` (lines 102-105): intersection
rule OR bonus rule. -/
def isMatchRow (df : DataFrame) (current_numbers : List Int) (gt : GameType)
    (row : Row) : Bool :=
  intersectionMatch df.hasBonus current_numbers row gt || bonusMatch df current_numbers row gt

/-- `collections.Counter` as an association list in insertion order. -/
abbrev Counter (α : Type) := List (α × Nat)

/-- Add one occurrence of `x`: bump an existing key in place, or append the
new key at the end (Python dicts preserve insertion order). -/
def Counter.incr {α : Type} [DecidableEq α] (c : Counter α) (x : α) : Counter α :=
  match c with
  | [] => [(x, 1)]
  | (y, n) :: rest => if y = x then (y, n + 1) :: rest else (y, n) :: Counter.incr rest x

/-- `Counter.update(iterable)`: count each element of the iterable in order. -/
def Counter.update {α : Type} [DecidableEq α] (c : Counter α) (l : List α) : Counter α :=
  l.foldl Counter.incr c

/-- The multiplicity stored for `x` (0 when absent). -/
def Counter.count {α : Type} [DecidableEq α] (c : Counter α) (x : α) : Nat :=
  match c with
  | [] => 0
  | (y, n) :: rest => if y = x then n else Counter.count rest x

/-- `Counter.most_common(k)`: stable sort of the items by count descending,
then the first `k`. -/
def Counter.most_common {α : Type} [DecidableEq α] (c : Counter α) (k : Nat) :
    List (α × Nat) :=
  (List.insertionSort (fun p q => q.2 ≤ p.2) c).take k

/-- The body of the `analyze_patterns` loop for one index `i` (lines 72-85):
`predictions.update(...)` once on an intersection match and twice more on a
bonus match. -/
def patternStep (df : DataFrame) (current_numbers : List Int) (gt : GameType)
    (predictions : Counter Int) (i : Nat) : Counter Int :=
  let row := df.rows.getD i default
  let p1 :=
    if intersectionMatch df.hasBonus current_numbers row gt then
      Counter.update predictions (get_next_numbers_list df i gt)
    else predictions
  if bonusMatch df current_numbers row gt then
    Counter.update (Counter.update p1 (get_next_numbers_list df i gt))
      (get_next_numbers_list df i gt)
  else p1

/-- `analyze_patterns(df, current_numbers, game_type)` (lines 63-87): scan
rows `0 .. len-2`; on an intersection match count the next draw's numbers
once; on a bonus match count them twice more (double weight), additively. -/
def analyze_patterns (df : DataFrame) (current_numbers : List Int) (gt : GameType) :
    Counter Int :=
  (List.range (df.rows.length - 1)).foldl (patternStep df current_numbers gt) []

/-- The `'Diff'` / `'Sum'` tag of a split entry. -/
inductive SplitKind where
  | Diff
  | Sum
deriving DecidableEq, Repr

/-- A key of a per-target split counter: `(a, b, kind)`. -/
abbrev SplitKey := Int × Int × SplitKind

/-- The dict `split_stats`: association list from target to its counter. -/
abbrev SplitStats := List (Int × Counter SplitKey)

/-- `itertools.combinations(l, 2)` in its enumeration order. -/
def pairsOf : List Int → List (Int × Int)
  | [] => []
  | x :: xs => xs.map (fun y => (x, y)) ++ pairsOf xs

/-- One step of building `{t: Counter() for t in top_targets}`: bind `t` to
an empty counter, re-binding it in place when the key already exists. -/
def dictSetEmpty (d : SplitStats) (t : Int) : SplitStats :=
  if d.any (fun p => p.1 == t) then
    d.map (fun p => if p.1 = t then (p.1, ([] : Counter SplitKey)) else p)
  else d ++ [(t, [])]

/-- `{t: Counter() for t in top_targets}`: keys in first-occurrence order,
each bound to an empty counter (a duplicate target re-binds its key). -/
def dictInit (targets : List Int) : SplitStats :=
  targets.foldl dictSetEmpty []

/-- `split_stats[t] = f(split_stats[t])` on an association list with unique
keys (a no-op when the key is absent; in the engine it never is). -/
def dictModify (d : SplitStats) (t : Int) (f : Counter SplitKey → Counter SplitKey) :
    SplitStats :=
  d.map (fun p => if p.1 = t then (p.1, f p.2) else p)

/-- `split_stats[t]` (empty counter when the key is absent). -/
def dictGet (d : SplitStats) (t : Int) : Counter SplitKey :=
  match d.find? (fun p => p.1 == t) with
  | some p => p.2
  | none => []

/-- The key list of `split_stats`, in insertion order. -/
def dictKeys (d : SplitStats) : List Int :=
  d.map Prod.fst

/-- The body of the innermost `analyze_splits` loop for one pair `(a, b)`
and the current target `t` (lines 113-119): count `(a, b, Diff)` when
`|a - b| = t`, then `(a, b, Sum)` when `a + b = t`. -/
def splitPairStep (t : Int) (ss : SplitStats) (ab : Int × Int) : SplitStats :=
  let ss3 :=
    if |ab.1 - ab.2| = t then
      dictModify ss t (fun c => Counter.incr c (ab.1, ab.2, SplitKind.Diff))
    else ss
  if ab.1 + ab.2 = t then
    dictModify ss3 t (fun c => Counter.incr c (ab.1, ab.2, SplitKind.Sum))
  else ss3

/-- The body of the `analyze_splits` outer loop for one index `i`
(lines 98-119): when `is_match`, scan every target and every unordered pair
of the next draw. -/
def splitRowStep (df : DataFrame) (current_numbers : List Int) (top_targets : List Int)
    (gt : GameType) (split_stats : SplitStats) (i : Nat) : SplitStats :=
  let row := df.rows.getD i default
  let is_match := isMatchRow df current_numbers gt row
  if is_match then
    let next_nums := get_next_numbers_list df i gt
    let next_pairs := pairsOf next_nums
    top_targets.foldl (fun ss t => next_pairs.foldl (splitPairStep t) ss) split_stats
  else split_stats

/-- `analyze_splits(df, current_numbers, top_targets, game_type)`
(lines 89-121): initialise a counter per target; for every matching row
(`is_match`) enumerate the unordered pairs of the next draw and, for every
target `t`, count `(a, b, Diff)` when `|a - b| = t` and `(a, b, Sum)` when
`a + b = t`. -/
def analyze_splits (df : DataFrame) (current_numbers : List Int) (top_targets : List Int)
    (gt : GameType) : SplitStats :=
  (List.range (df.rows.length - 1)).foldl
    (splitRowStep df current_numbers top_targets gt)
    (dictInit top_targets)

/-- Line 152: the top 7 targets of the reference flow,
`[n for n, c in raw_predictions.most_common(7)]`. -/
def top_targets_flow (df : DataFrame) (current_numbers : List Int) (gt : GameType) :
    List Int :=
  (Counter.most_common (analyze_patterns df current_numbers gt) 7).map Prod.fst

/-- Line 173: the top 3 split entries for one target in the reference flow,
`split_data[target].most_common(3)`. -/
def splits_flow (df : DataFrame) (current_numbers : List Int) (gt : GameType)
    (target : Int) : List (SplitKey × Nat) :=
  Counter.most_common
    (dictGet (analyze_splits df current_numbers (top_targets_flow df current_numbers gt) gt)
      target) 3

/-!
Derived characterisations of the scans, used to settle the claims:
`patternStream` is the sequence of numbers counted by `analyze_patterns`
in scan order, and `splitStream t` is the sequence of keys counted into
target `t`'s counter by `analyze_splits` in scan order. `firstOcc` keeps
the first occurrence of every element of a list, in order; it expresses
"first-seen order in the scan".
-/

/-- The elements `analyze_patterns` counts for one index, in order: the
next draw once on an intersection match plus twice more on a bonus match. -/
def patternRowStream (df : DataFrame) (current_numbers : List Int) (gt : GameType)
    (i : Nat) : List Int :=
  let row := df.rows.getD i default
  (if intersectionMatch df.hasBonus current_numbers row gt then
    get_next_numbers_list df i gt else []) ++
  (if bonusMatch df current_numbers row gt then
    get_next_numbers_list df i gt ++ get_next_numbers_list df i gt else [])

/-- The elements counted by `analyze_patterns`, in scan order. -/
def patternStream (df : DataFrame) (current_numbers : List Int) (gt : GameType) :
    List Int :=
  (List.range (df.rows.length - 1)).flatMap (patternRowStream df current_numbers gt)

/-- The split keys generated for target `t` by one pair, in the order the
inner loop counts them. -/
def pairKeysOne (t : Int) (ab : Int × Int) : List SplitKey :=
  (if |ab.1 - ab.2| = t then [(ab.1, ab.2, SplitKind.Diff)] else []) ++
  (if ab.1 + ab.2 = t then [(ab.1, ab.2, SplitKind.Sum)] else [])

/-- The split keys generated for target `t` by one matching row's pair list. -/
def pairKeys (t : Int) (pairs : List (Int × Int)) : List SplitKey :=
  pairs.flatMap (pairKeysOne t)

/-- The keys counted into target `t`'s counter by one index of the
`analyze_splits` scan; each occurrence of `t` in `top_targets` replays the
row's keys once. -/
def splitRowStream (df : DataFrame) (current_numbers : List Int) (top_targets : List Int)
    (gt : GameType) (t : Int) (i : Nat) : List SplitKey :=
  if isMatchRow df current_numbers gt (df.rows.getD i default) then
    (List.replicate (top_targets.count t)
      (pairKeys t (pairsOf (get_next_numbers_list df i gt)))).flatten
  else []

/-- The keys counted into target `t`'s counter by `analyze_splits`, in scan
order. -/
def splitStream (df : DataFrame) (current_numbers : List Int) (top_targets : List Int)
    (gt : GameType) (t : Int) : List SplitKey :=
  (List.range (df.rows.length - 1)).flatMap
    (splitRowStream df current_numbers top_targets gt t)

/-- The key list of a counter, in insertion order. -/
def Counter.keys {α : Type} (c : Counter α) : List α :=
  c.map Prod.fst

/-- The first occurrence of each element of a list, in order. -/
def firstOcc {α : Type} [DecidableEq α] : List α → List α
  | [] => []
  | x :: xs => x :: firstOcc (xs.filter (fun y => y ≠ x))
termination_by l => l.length
decreasing_by
  simpa using Nat.lt_succ_of_le (List.length_filter_le _ xs)

/-- Concrete fixture: the variant-A scenario of the spec's testable
property 5 (history `{1..5}, {2..6}, {3..7}`, no `Bonus` column). -/
def dfScenarioA : DataFrame :=
  { hasBonus := false,
    rows := [⟨[1, 2, 3, 4, 5], 0⟩, ⟨[2, 3, 4, 5, 6], 0⟩, ⟨[3, 4, 5, 6, 7], 0⟩] }

/-- Concrete fixture: a UK 49s frame whose first row matches both rules
against `[1, 2, 3, 4, 5, 6, 40]`. -/
def dfBonusBoth : DataFrame :=
  { hasBonus := true,
    rows := [⟨[1, 2, 3, 20, 21, 22], 40⟩, ⟨[5, 6, 7, 8, 9, 10], 0⟩] }

/-- Concrete fixture: as `dfBonusBoth` but the first row's bonus is 41, so
only the intersection rule fires. -/
def dfBonusInterOnly : DataFrame :=
  { hasBonus := true,
    rows := [⟨[1, 2, 3, 20, 21, 22], 41⟩, ⟨[5, 6, 7, 8, 9, 10], 0⟩] }

/-- Concrete fixture: an empty frame without a `Bonus` column. -/
def dfEmpty : DataFrame :=
  { hasBonus := false, rows := [] }

/-- Concrete fixture: an empty frame with a `Bonus` column. -/
def dfEmptyB : DataFrame :=
  { hasBonus := true, rows := [] }

section CounterLemmas

variable {α : Type} [DecidableEq α]

lemma Counter.count_incr (c : Counter α) (x y : α) :
    Counter.count (Counter.incr c y) x = Counter.count c x + (if y = x then 1 else 0) := by
  induction c with
  | nil => simp [Counter.incr, Counter.count]
  | cons p rest ih =>
    obtain ⟨z, n⟩ := p
    by_cases hz : z = y
    · subst hz
      simp only [Counter.incr, if_pos rfl, Counter.count]
      by_cases hx : z = x
      · subst hx; simp
      · simp [hx]
    · simp only [Counter.incr, if_neg hz, Counter.count]
      by_cases hx : z = x
      · subst hx
        have : ¬ y = z := fun h => hz h.symm
        simp [this]
      · simp [hx, ih]

lemma Counter.count_update (c : Counter α) (l : List α) (x : α) :
    Counter.count (Counter.update c l) x = Counter.count c x + l.count x := by
  induction l generalizing c with
  | nil => simp [Counter.update]
  | cons y ys ih =>
    show Counter.count (Counter.update (Counter.incr c y) ys) x = _
    rw [ih, Counter.count_incr]
    simp only [List.count_cons, beq_iff_eq]
    by_cases h : y = x
    · subst h; simp; omega
    · simp [h]

lemma Counter.count_nil_update_pos (s : List α) (x : α) :
    0 < Counter.count (Counter.update ([] : Counter α) s) x ↔ x ∈ s := by
  rw [Counter.count_update]
  rw [show Counter.count ([] : Counter α) x = 0 from rfl, Nat.zero_add]
  exact List.count_pos_iff

lemma Counter.update_append (c : Counter α) (l₁ l₂ : List α) :
    Counter.update c (l₁ ++ l₂) = Counter.update (Counter.update c l₁) l₂ :=
  List.foldl_append _ _ _ _

lemma Counter.keys_incr (c : Counter α) (x : α) :
    Counter.keys (Counter.incr c x) =
      if x ∈ Counter.keys c then Counter.keys c else Counter.keys c ++ [x] := by
  induction c with
  | nil => simp [Counter.incr, Counter.keys]
  | cons p rest ih =>
    obtain ⟨z, n⟩ := p
    by_cases hz : z = x
    · subst hz
      simp [Counter.incr, Counter.keys]
    · have hne : x ≠ z := fun h => hz h.symm
      simp only [Counter.incr, if_neg hz, Counter.keys, List.map_cons] at ih ⊢
      by_cases hx : x ∈ List.map Prod.fst rest
      · simp [hx, hne, ih]
      · simp [hx, hne, ih]

lemma Counter.count_eq_zero_of_not_mem_keys (c : Counter α) (x : α)
    (h : x ∉ Counter.keys c) : Counter.count c x = 0 := by
  induction c with
  | nil => simp [Counter.count]
  | cons p rest ih =>
    simp only [Counter.keys, List.map_cons, List.mem_cons, not_or] at h
    have : ¬ p.1 = x := fun hh => h.1 hh.symm
    cases p with
    | mk z n =>
      simp only [Counter.count]
      simp only at this
      rw [if_neg this]
      exact ih (by simpa [Counter.keys] using h.2)

lemma firstOcc_nil : firstOcc ([] : List α) = [] := by
  rw [firstOcc]

lemma firstOcc_cons (x : α) (xs : List α) :
    firstOcc (x :: xs) = x :: firstOcc (xs.filter (fun y => y ≠ x)) := by
  rw [firstOcc]

lemma mem_firstOcc (y : α) : ∀ (l : List α), y ∈ firstOcc l ↔ y ∈ l := by
  intro l
  induction l using firstOcc.induct with
  | case1 => simp [firstOcc_nil]
  | case2 x xs ih =>
    rw [firstOcc_cons]
    by_cases hyx : y = x
    · subst hyx; simp
    · simp only [List.mem_cons, hyx, false_or, ih, List.mem_filter]
      constructor
      · exact fun h => h.1
      · exact fun h => ⟨h, by simpa using hyx⟩

lemma nodup_firstOcc : ∀ (l : List α), (firstOcc l).Nodup := by
  intro l
  induction l using firstOcc.induct with
  | case1 => simp [firstOcc_nil]
  | case2 x xs ih =>
    rw [firstOcc_cons]
    refine List.nodup_cons.mpr ⟨?_, ih⟩
    intro hx
    rw [mem_firstOcc, List.mem_filter] at hx
    simpa using hx.2

lemma Counter.keys_update (s : List α) : ∀ (c : Counter α),
    Counter.keys (Counter.update c s) =
      Counter.keys c ++ firstOcc (s.filter (fun y => y ∉ Counter.keys c)) := by
  induction s with
  | nil => intro c; simp [Counter.update, firstOcc_nil]
  | cons x xs ih =>
    intro c
    show Counter.keys (Counter.update (Counter.incr c x) xs) = _
    rw [ih, Counter.keys_incr]
    by_cases hx : x ∈ Counter.keys c
    · rw [if_pos hx]
      have : List.filter (fun y => decide (y ∉ Counter.keys c)) (x :: xs) =
          List.filter (fun y => decide (y ∉ Counter.keys c)) xs := by
        rw [List.filter_cons]
        simp [hx]
      rw [this]
    · rw [if_neg hx, List.append_assoc]
      congr 1
      have hfc : List.filter (fun y => decide (y ∉ Counter.keys c)) (x :: xs) =
          x :: List.filter (fun y => decide (y ∉ Counter.keys c)) xs := by
        rw [List.filter_cons]
        simp [hx]
      rw [hfc, firstOcc_cons, List.filter_filter]
      have hpred : ∀ y ∈ xs,
          (decide (y ≠ x) && decide (y ∉ Counter.keys c)) =
            decide (y ∉ Counter.keys c ++ [x]) := by
        intro y _
        by_cases h1 : y ∈ Counter.keys c <;> by_cases h2 : y = x <;> simp [h1, h2]
      rw [List.filter_congr hpred]
      simp

lemma Counter.keys_update_nil (s : List α) :
    Counter.keys (Counter.update ([] : Counter α) s) = firstOcc s := by
  rw [Counter.keys_update]
  simp [Counter.keys]

lemma Counter.nodup_keys_update_nil (s : List α) :
    (Counter.keys (Counter.update ([] : Counter α) s)).Nodup := by
  rw [Counter.keys_update_nil]
  exact nodup_firstOcc s

end CounterLemmas

section PatternLemmas

lemma count_flatMap {α β : Type} [DecidableEq β] (f : α → List β) (x : β) :
    ∀ (L : List α), (L.flatMap f).count x = (L.map (fun i => (f i).count x)).sum := by
  intro L
  induction L with
  | nil => simp
  | cons i L ih => simp [List.flatMap_cons, List.count_append, ih]

lemma patternStep_eq_update (df : DataFrame) (cur : List Int) (gt : GameType)
    (c : Counter Int) (i : Nat) :
    patternStep df cur gt c i = Counter.update c (patternRowStream df cur gt i) := by
  unfold patternStep patternRowStream
  cases h1 : intersectionMatch df.hasBonus cur (df.rows.getD i default) gt <;>
    cases h2 : bonusMatch df cur (df.rows.getD i default) gt <;>
      simp only [h1, h2, if_true, if_false, Bool.false_eq_true, Counter.update] <;>
        simp [List.foldl_append]

lemma foldl_patternStep_eq (df : DataFrame) (cur : List Int) (gt : GameType) :
    ∀ (L : List Nat) (c : Counter Int),
      L.foldl (patternStep df cur gt) c =
        Counter.update c (L.flatMap (patternRowStream df cur gt)) := by
  intro L
  induction L with
  | nil => intro c; simp [Counter.update]
  | cons i L ih =>
    intro c
    rw [List.foldl_cons, ih, patternStep_eq_update, List.flatMap_cons,
      Counter.update_append]

lemma analyze_patterns_eq_stream (df : DataFrame) (cur : List Int) (gt : GameType) :
    analyze_patterns df cur gt = Counter.update [] (patternStream df cur gt) :=
  foldl_patternStep_eq df cur gt _ []

lemma count_patternRowStream (df : DataFrame) (cur : List Int) (gt : GameType)
    (i : Nat) (x : Int) :
    (patternRowStream df cur gt i).count x =
      ((if intersectionMatch df.hasBonus cur (df.rows.getD i default) gt then 1 else 0) +
        (if bonusMatch df cur (df.rows.getD i default) gt then 2 else 0)) *
        (get_next_numbers_list df i gt).count x := by
  unfold patternRowStream
  cases h1 : intersectionMatch df.hasBonus cur (df.rows.getD i default) gt <;>
    cases h2 : bonusMatch df cur (df.rows.getD i default) gt <;>
      simp only [h1, h2, if_true, if_false, Bool.false_eq_true] <;>
        simp [List.count_append] <;> ring

lemma analyze_patterns_count (df : DataFrame) (cur : List Int) (gt : GameType) (x : Int) :
    Counter.count (analyze_patterns df cur gt) x =
      ((List.range (df.rows.length - 1)).map (fun i =>
        ((if intersectionMatch df.hasBonus cur (df.rows.getD i default) gt then 1 else 0) +
          (if bonusMatch df cur (df.rows.getD i default) gt then 2 else 0)) *
          (get_next_numbers_list df i gt).count x)).sum := by
  rw [analyze_patterns_eq_stream, Counter.count_update, patternStream, count_flatMap]
  simp only [Counter.count]
  rw [Nat.zero_add]
  congr 1
  exact List.map_congr_left (fun i _ => count_patternRowStream df cur gt i x)

end PatternLemmas

section SplitLemmas

lemma dictKeys_dictModify (d : SplitStats) (t : Int)
    (f : Counter SplitKey → Counter SplitKey) :
    dictKeys (dictModify d t f) = dictKeys d := by
  unfold dictKeys dictModify
  rw [List.map_map]
  apply List.map_congr_left
  intro p _
  by_cases h : p.1 = t <;> simp [h]

lemma dictGet_eq_nil_of_not_mem (d : SplitStats) (t : Int) (h : t ∉ dictKeys d) :
    dictGet d t = [] := by
  unfold dictGet
  cases hf : d.find? (fun p => p.1 == t) with
  | none => rfl
  | some p =>
    exfalso
    have hp : p ∈ d := List.mem_of_find?_eq_some hf
    have ht : p.1 = t := by simpa using List.find?_some hf
    exact h (List.mem_map.mpr ⟨p, hp, ht⟩)

lemma dictGet_dictModify_self (d : SplitStats) (t : Int)
    (f : Counter SplitKey → Counter SplitKey) (h : t ∈ dictKeys d) :
    dictGet (dictModify d t f) t = f (dictGet d t) := by
  induction d with
  | nil => simp [dictKeys] at h
  | cons p rest ih =>
    by_cases hp : p.1 = t
    · simp [dictModify, dictGet, List.find?_cons, hp]
    · have hb : (p.1 == t) = false := by simpa using hp
      have hrest : t ∈ dictKeys rest := by
        rcases List.mem_map.mp h with ⟨q, hq, hqt⟩
        rcases List.mem_cons.mp hq with hq1 | hq2
        · exact absurd (hq1 ▸ hqt) hp
        · exact List.mem_map.mpr ⟨q, hq2, hqt⟩
      simp only [dictModify, List.map_cons, if_neg hp]
      show dictGet (p :: dictModify rest t f) t = _
      simp only [dictGet, List.find?_cons, hb]
      exact ih hrest

lemma dictGet_dictModify_ne (d : SplitStats) (t t' : Int)
    (f : Counter SplitKey → Counter SplitKey) (h : t' ≠ t) :
    dictGet (dictModify d t f) t' = dictGet d t' := by
  induction d with
  | nil => rfl
  | cons p rest ih =>
    by_cases hp : p.1 = t
    · have hb : (p.1 == t') = false := by
        rw [hp]
        exact beq_eq_false_iff_ne.mpr (Ne.symm h)
      simp only [dictModify, List.map_cons, if_pos hp]
      show dictGet ((p.1, f p.2) :: dictModify rest t f) t' = _
      simp only [dictGet, List.find?_cons, hb]
      exact ih
    · simp only [dictModify, List.map_cons, if_neg hp]
      show dictGet (p :: dictModify rest t f) t' = _
      cases hb : (p.1 == t') with
      | true => simp [dictGet, List.find?_cons, hb]
      | false =>
        simp only [dictGet, List.find?_cons, hb]
        exact ih

lemma dictKeys_splitPairStep (t : Int) (ss : SplitStats) (ab : Int × Int) :
    dictKeys (splitPairStep t ss ab) = dictKeys ss := by
  unfold splitPairStep
  by_cases h1 : |ab.1 - ab.2| = t <;> by_cases h2 : ab.1 + ab.2 = t <;>
    simp [h1, h2, dictKeys_dictModify]

lemma dictGet_splitPairStep_self (t : Int) (ss : SplitStats) (ab : Int × Int)
    (h : t ∈ dictKeys ss) :
    dictGet (splitPairStep t ss ab) t =
      Counter.update (dictGet ss t) (pairKeysOne t ab) := by
  unfold splitPairStep pairKeysOne
  by_cases h1 : |ab.1 - ab.2| = t <;> by_cases h2 : ab.1 + ab.2 = t
  · rw [if_pos h1, if_pos h2, if_pos h1, if_pos h2]
    rw [dictGet_dictModify_self _ _ _ (by rw [dictKeys_dictModify]; exact h)]
    rw [dictGet_dictModify_self _ _ _ h]
    simp [Counter.update]
  · rw [if_pos h1, if_neg h2, if_pos h1, if_neg h2]
    rw [dictGet_dictModify_self _ _ _ h]
    simp [Counter.update]
  · rw [if_neg h1, if_pos h2, if_neg h1, if_pos h2]
    rw [dictGet_dictModify_self _ _ _ h]
    simp [Counter.update]
  · rw [if_neg h1, if_neg h2, if_neg h1, if_neg h2]
    simp [Counter.update]

lemma dictGet_splitPairStep_ne (t t' : Int) (ss : SplitStats) (ab : Int × Int)
    (h : t' ≠ t) :
    dictGet (splitPairStep t ss ab) t' = dictGet ss t' := by
  unfold splitPairStep
  by_cases h1 : |ab.1 - ab.2| = t <;> by_cases h2 : ab.1 + ab.2 = t <;>
    simp [h1, h2, dictGet_dictModify_ne _ _ _ _ h]

lemma dictKeys_pairFold (t : Int) (pairs : List (Int × Int)) :
    ∀ (ss : SplitStats), dictKeys (pairs.foldl (splitPairStep t) ss) = dictKeys ss := by
  induction pairs with
  | nil => intro ss; rfl
  | cons ab pairs ih =>
    intro ss
    rw [List.foldl_cons, ih, dictKeys_splitPairStep]

lemma dictGet_pairFold_self (t : Int) (pairs : List (Int × Int)) :
    ∀ (ss : SplitStats), t ∈ dictKeys ss →
      dictGet (pairs.foldl (splitPairStep t) ss) t =
        Counter.update (dictGet ss t) (pairKeys t pairs) := by
  induction pairs with
  | nil => intro ss _; simp [pairKeys, Counter.update]
  | cons ab pairs ih =>
    intro ss h
    rw [List.foldl_cons, ih _ (by rw [dictKeys_splitPairStep]; exact h),
      dictGet_splitPairStep_self _ _ _ h]
    simp only [pairKeys, List.flatMap_cons, Counter.update_append]

lemma dictGet_pairFold_ne (t t' : Int) (pairs : List (Int × Int)) (h : t' ≠ t) :
    ∀ (ss : SplitStats),
      dictGet (pairs.foldl (splitPairStep t) ss) t' = dictGet ss t' := by
  induction pairs with
  | nil => intro ss; rfl
  | cons ab pairs ih =>
    intro ss
    rw [List.foldl_cons, ih, dictGet_splitPairStep_ne _ _ _ _ h]

lemma dictKeys_targetFold (pairs : List (Int × Int)) :
    ∀ (targets : List Int) (ss : SplitStats),
      dictKeys (targets.foldl (fun ss t => pairs.foldl (splitPairStep t) ss) ss) =
        dictKeys ss := by
  intro targets
  induction targets with
  | nil => intro ss; rfl
  | cons t ts ih =>
    intro ss
    rw [List.foldl_cons, ih, dictKeys_pairFold]

lemma dictGet_targetFold (pairs : List (Int × Int)) (t₀ : Int) :
    ∀ (targets : List Int) (ss : SplitStats), t₀ ∈ dictKeys ss →
      dictGet (targets.foldl (fun ss t => pairs.foldl (splitPairStep t) ss) ss) t₀ =
        Counter.update (dictGet ss t₀)
          ((List.replicate (targets.count t₀) (pairKeys t₀ pairs)).flatten) := by
  intro targets
  induction targets with
  | nil => intro ss _; simp [Counter.update]
  | cons t ts ih =>
    intro ss h
    rw [List.foldl_cons]
    by_cases ht : t = t₀
    · subst ht
      rw [ih _ (by rw [dictKeys_pairFold]; exact h),
        dictGet_pairFold_self _ _ _ h, List.count_cons_self, List.replicate_succ,
        List.flatten_cons, Counter.update_append]
    · rw [ih _ (by rw [dictKeys_pairFold]; exact h),
        dictGet_pairFold_ne _ _ _ (fun hh => ht hh.symm),
        List.count_cons_of_ne (fun hh => ht hh.symm)]

lemma dictKeys_dictSetEmpty (d : SplitStats) (t : Int) :
    dictKeys (dictSetEmpty d t) =
      if t ∈ dictKeys d then dictKeys d else dictKeys d ++ [t] := by
  unfold dictSetEmpty
  by_cases h : t ∈ dictKeys d
  · have ha : d.any (fun p => p.1 == t) = true := by
      rw [List.any_eq_true]
      rcases List.mem_map.mp h with ⟨p, hp, hpt⟩
      exact ⟨p, hp, by simpa using hpt⟩
    rw [if_pos ha, if_pos h]
    unfold dictKeys
    rw [List.map_map]
    apply List.map_congr_left
    intro p _
    by_cases hp : p.1 = t <;> simp [hp]
  · have ha : ¬ d.any (fun p => p.1 == t) = true := by
      rw [List.any_eq_true]
      rintro ⟨p, hp, hpt⟩
      exact h (List.mem_map.mpr ⟨p, hp, by simpa using hpt⟩)
    rw [if_neg ha, if_neg h]
    unfold dictKeys
    rw [List.map_append]
    rfl

lemma mem_foldl_dictSetEmpty (ts : List Int) :
    ∀ (d : SplitStats) (x : Int),
      x ∈ dictKeys (ts.foldl dictSetEmpty d) ↔ x ∈ dictKeys d ∨ x ∈ ts := by
  induction ts with
  | nil => intro d x; simp
  | cons t ts ih =>
    intro d x
    rw [List.foldl_cons, ih, dictKeys_dictSetEmpty]
    by_cases h : t ∈ dictKeys d
    · rw [if_pos h]
      constructor
      · rintro (hx | hx)
        · exact Or.inl hx
        · exact Or.inr (List.mem_cons_of_mem _ hx)
      · rintro (hx | hx)
        · exact Or.inl hx
        · rcases List.mem_cons.mp hx with hx | hx
          · exact Or.inl (hx ▸ h)
          · exact Or.inr hx
    · rw [if_neg h]
      simp only [List.mem_append, List.mem_singleton, List.mem_cons]
      tauto

lemma mem_dictKeys_dictInit (targets : List Int) (x : Int) :
    x ∈ dictKeys (dictInit targets) ↔ x ∈ targets := by
  unfold dictInit
  rw [mem_foldl_dictSetEmpty]
  simp [dictKeys]

lemma nodup_foldl_dictSetEmpty (ts : List Int) :
    ∀ (d : SplitStats), (dictKeys d).Nodup →
      (dictKeys (ts.foldl dictSetEmpty d)).Nodup := by
  induction ts with
  | nil => intro d h; exact h
  | cons t ts ih =>
    intro d h
    rw [List.foldl_cons]
    apply ih
    rw [dictKeys_dictSetEmpty]
    by_cases hm : t ∈ dictKeys d
    · rwa [if_pos hm]
    · rw [if_neg hm]
      simp [List.nodup_append, h, List.Disjoint]
      intro a ha hat
      exact hm (hat ▸ ha)

lemma nodup_dictKeys_dictInit (targets : List Int) :
    (dictKeys (dictInit targets)).Nodup := by
  unfold dictInit
  exact nodup_foldl_dictSetEmpty targets [] (by simp [dictKeys])

lemma values_foldl_dictSetEmpty (ts : List Int) :
    ∀ (d : SplitStats), (∀ p ∈ d, p.2 = ([] : Counter SplitKey)) →
      ∀ p ∈ ts.foldl dictSetEmpty d, p.2 = ([] : Counter SplitKey) := by
  induction ts with
  | nil => intro d h; exact h
  | cons t ts ih =>
    intro d h
    rw [List.foldl_cons]
    apply ih
    unfold dictSetEmpty
    by_cases ha : d.any (fun p => p.1 == t) = true
    · rw [if_pos ha]
      intro p hp
      rcases List.mem_map.mp hp with ⟨q, hq, hqp⟩
      by_cases hqt : q.1 = t
      · rw [if_pos hqt] at hqp
        rw [← hqp]
      · rw [if_neg hqt] at hqp
        rw [← hqp]
        exact h q hq
    · rw [if_neg ha]
      intro p hp
      rcases List.mem_append.mp hp with hp | hp
      · exact h p hp
      · rcases List.mem_singleton.mp hp with rfl
        rfl

lemma dictGet_dictInit (targets : List Int) (t : Int) :
    dictGet (dictInit targets) t = [] := by
  unfold dictGet
  cases hf : (dictInit targets).find? (fun p => p.1 == t) with
  | none => rfl
  | some p =>
    have hp : p ∈ dictInit targets := List.mem_of_find?_eq_some hf
    exact values_foldl_dictSetEmpty targets [] (by simp) p hp

lemma dictKeys_splitRowStep (df : DataFrame) (cur : List Int) (targets : List Int)
    (gt : GameType) (ss : SplitStats) (i : Nat) :
    dictKeys (splitRowStep df cur targets gt ss i) = dictKeys ss := by
  unfold splitRowStep
  cases hm : isMatchRow df cur gt (df.rows.getD i default)
  · simp only [hm, Bool.false_eq_true, if_false]
  · simp only [hm, if_true]
    exact dictKeys_targetFold _ _ _

lemma dictGet_splitRowStep (df : DataFrame) (cur : List Int) (targets : List Int)
    (gt : GameType) (ss : SplitStats) (i : Nat) (t : Int) (h : t ∈ dictKeys ss) :
    dictGet (splitRowStep df cur targets gt ss i) t =
      Counter.update (dictGet ss t) (splitRowStream df cur targets gt t i) := by
  unfold splitRowStep splitRowStream
  cases hm : isMatchRow df cur gt (df.rows.getD i default)
  · simp only [hm, Bool.false_eq_true, if_false]
    simp [Counter.update]
  · simp only [hm, if_true]
    exact dictGet_targetFold _ _ _ _ h

lemma dictGet_foldl_splitRowStep (df : DataFrame) (cur : List Int) (targets : List Int)
    (gt : GameType) (t : Int) :
    ∀ (L : List Nat) (ss : SplitStats), t ∈ dictKeys ss →
      dictGet (L.foldl (splitRowStep df cur targets gt) ss) t =
        Counter.update (dictGet ss t)
          (L.flatMap (splitRowStream df cur targets gt t)) := by
  intro L
  induction L with
  | nil => intro ss _; simp [Counter.update]
  | cons i L ih =>
    intro ss h
    rw [List.foldl_cons, ih _ (by rw [dictKeys_splitRowStep]; exact h),
      dictGet_splitRowStep _ _ _ _ _ _ _ h, List.flatMap_cons, Counter.update_append]

lemma dictKeys_foldl_splitRowStep (df : DataFrame) (cur : List Int) (targets : List Int)
    (gt : GameType) :
    ∀ (L : List Nat) (ss : SplitStats),
      dictKeys (L.foldl (splitRowStep df cur targets gt) ss) = dictKeys ss := by
  intro L
  induction L with
  | nil => intro ss; rfl
  | cons i L ih =>
    intro ss
    rw [List.foldl_cons, ih, dictKeys_splitRowStep]

lemma dictKeys_analyze_splits (df : DataFrame) (cur : List Int) (targets : List Int)
    (gt : GameType) :
    dictKeys (analyze_splits df cur targets gt) = dictKeys (dictInit targets) := by
  unfold analyze_splits
  exact dictKeys_foldl_splitRowStep df cur targets gt _ _

lemma splits_entry_eq_stream (df : DataFrame) (cur : List Int) (targets : List Int)
    (gt : GameType) (t : Int) (h : t ∈ targets) :
    dictGet (analyze_splits df cur targets gt) t =
      Counter.update [] (splitStream df cur targets gt t) := by
  unfold analyze_splits splitStream
  rw [dictGet_foldl_splitRowStep _ _ _ _ _ _ _
    ((mem_dictKeys_dictInit targets t).mpr h), dictGet_dictInit]

end SplitLemmas

section SortLemmas

variable {α : Type} [DecidableEq α]

lemma sorted_insertionSort_count {β : Type} (c : List (β × Nat)) :
    (List.insertionSort (fun p q => q.2 ≤ p.2) c).Pairwise
      (fun p q : β × Nat => q.2 ≤ p.2) := by
  haveI : IsTotal (β × Nat) (fun p q => q.2 ≤ p.2) := ⟨fun a b => Nat.le_total b.2 a.2⟩
  haveI : IsTrans (β × Nat) (fun p q => q.2 ≤ p.2) :=
    ⟨fun a b c h1 h2 => Nat.le_trans h2 h1⟩
  exact List.sorted_insertionSort _ c

lemma sorted_most_common (c : Counter α) (k : Nat) :
    (Counter.most_common c k).Pairwise (fun p q : α × Nat => q.2 ≤ p.2) :=
  List.Pairwise.sublist (List.take_sublist k _) (sorted_insertionSort_count c)

lemma length_most_common (c : Counter α) (k : Nat) :
    (Counter.most_common c k).length ≤ k :=
  List.length_take_le k _

lemma pair_sublist_of_mem {β : Type} :
    ∀ (l : List β) (p q : β), p ∈ l → q ∈ l → p ≠ q →
      [p, q].Sublist l ∨ [q, p].Sublist l := by
  intro l
  induction l with
  | nil => intro p q hp _ _; simp at hp
  | cons a rest ih =>
    intro p q hp hq hne
    rcases List.mem_cons.mp hp with rfl | hp2
    · have hq' : q ∈ rest := by
        rcases List.mem_cons.mp hq with rfl | hq'
        · exact absurd rfl hne
        · exact hq'
      exact Or.inl (List.Sublist.cons₂ p (List.singleton_sublist.mpr hq'))
    · rcases List.mem_cons.mp hq with rfl | hq'
      · exact Or.inr (List.Sublist.cons₂ q (List.singleton_sublist.mpr hp2))
      · rcases ih p q hp2 hq' hne with h | h
        · exact Or.inl (h.cons a)
        · exact Or.inr (h.cons a)

lemma eq_of_pair_sublist_both {β : Type} :
    ∀ (l : List β), l.Nodup → ∀ (p q : β),
      [p, q].Sublist l → [q, p].Sublist l → p = q := by
  intro l
  induction l with
  | nil => intro _ p q h1 _; cases h1
  | cons a rest ih =>
    intro hnd p q h1 h2
    obtain ⟨ha, hrest⟩ := List.nodup_cons.mp hnd
    cases h1 with
    | cons _ h1' =>
      cases h2 with
      | cons _ h2' => exact ih hrest p q h1' h2'
      | cons₂ _ h2' =>
        exfalso
        exact ha (h1'.subset (by simp))
    | cons₂ _ h1' =>
      cases h2 with
      | cons _ h2' =>
        exfalso
        exact ha (h2'.subset (by simp))
      | cons₂ _ h2' => rfl

lemma stable_most_common (c : Counter α) (hnd : c.Nodup) (k : Nat) (p q : α × Nat)
    (h : [p, q].Sublist (Counter.most_common c k)) (heq : p.2 = q.2) :
    [p, q].Sublist c := by
  have hsorted : [p, q].Sublist (List.insertionSort (fun p q => q.2 ≤ p.2) c) :=
    h.trans (List.take_sublist k _)
  have hndsorted : (List.insertionSort (fun p q : α × Nat => q.2 ≤ p.2) c).Nodup :=
    (List.perm_insertionSort _ c).nodup_iff.mpr hnd
  have hne : p ≠ q := by
    intro hpq
    subst hpq
    have := hsorted.nodup hndsorted
    simp at this
  have hp : p ∈ c := (List.perm_insertionSort _ c).subset (hsorted.subset (by simp))
  have hq : q ∈ c := (List.perm_insertionSort _ c).subset (hsorted.subset (by simp))
  rcases pair_sublist_of_mem c p q hp hq hne with h1 | h1
  · exact h1
  · exfalso
    have h2 : [q, p].Sublist (List.insertionSort (fun p q => q.2 ≤ p.2) c) :=
      List.pair_sublist_insertionSort (by rw [heq]) h1
    exact hne (eq_of_pair_sublist_both _ hndsorted p q hsorted h2)

lemma topK_most_common (c : Counter α) (k : Nat) (p : α × Nat) (hp : p ∈ c)
    (hpk : p ∉ Counter.most_common c k) :
    ∀ q ∈ Counter.most_common c k, p.2 ≤ q.2 := by
  intro q hq
  have hps : p ∈ List.insertionSort (fun p q => q.2 ≤ p.2) c :=
    (List.perm_insertionSort _ c).mem_iff.mpr hp
  have hpd : p ∈ (List.insertionSort (fun p q : α × Nat => q.2 ≤ p.2) c).drop k := by
    rcases List.mem_append.mp
      (by rwa [List.take_append_drop k (List.insertionSort (fun p q => q.2 ≤ p.2) c)]
        : p ∈ (List.insertionSort (fun p q : α × Nat => q.2 ≤ p.2) c).take k ++
            (List.insertionSort (fun p q : α × Nat => q.2 ≤ p.2) c).drop k)
      with h | h
    · exact absurd h hpk
    · exact h
  have hpw := sorted_insertionSort_count c
  rw [← List.take_append_drop k (List.insertionSort (fun p q => q.2 ≤ p.2) c)] at hpw
  exact (List.pairwise_append.mp hpw).2.2 q hq p hpd

end SortLemmas

section BridgeLemmas

lemma splits_entry_eq_stream_all (df : DataFrame) (cur : List Int) (targets : List Int)
    (gt : GameType) (t : Int) :
    dictGet (analyze_splits df cur targets gt) t =
      Counter.update [] (splitStream df cur targets gt t) := by
  by_cases h : t ∈ targets
  · exact splits_entry_eq_stream df cur targets gt t h
  · rw [dictGet_eq_nil_of_not_mem _ _ (by
      rw [dictKeys_analyze_splits, mem_dictKeys_dictInit]
      exact h)]
    have hs : splitStream df cur targets gt t = [] := by
      unfold splitStream splitRowStream
      rw [List.flatMap_eq_nil_iff]
      intro i _
      rw [List.count_eq_zero.mpr h]
      simp
    rw [hs]
    rfl

lemma nodup_analyze_patterns (df : DataFrame) (cur : List Int) (gt : GameType) :
    (analyze_patterns df cur gt).Nodup := by
  rw [analyze_patterns_eq_stream]
  exact List.Nodup.of_map Prod.fst (Counter.nodup_keys_update_nil _)

lemma keys_analyze_patterns (df : DataFrame) (cur : List Int) (gt : GameType) :
    Counter.keys (analyze_patterns df cur gt) = firstOcc (patternStream df cur gt) := by
  rw [analyze_patterns_eq_stream]
  exact Counter.keys_update_nil _

lemma nodup_splits_entry (df : DataFrame) (cur : List Int) (targets : List Int)
    (gt : GameType) (t : Int) :
    (dictGet (analyze_splits df cur targets gt) t).Nodup := by
  rw [splits_entry_eq_stream_all]
  exact List.Nodup.of_map Prod.fst (Counter.nodup_keys_update_nil _)

lemma keys_splits_entry (df : DataFrame) (cur : List Int) (targets : List Int)
    (gt : GameType) (t : Int) :
    Counter.keys (dictGet (analyze_splits df cur targets gt) t) =
      firstOcc (splitStream df cur targets gt t) := by
  rw [splits_entry_eq_stream_all]
  exact Counter.keys_update_nil _

lemma count_splits_entry_pos (df : DataFrame) (cur : List Int) (targets : List Int)
    (gt : GameType) (t : Int) (key : SplitKey) :
    0 < Counter.count (dictGet (analyze_splits df cur targets gt) t) key ↔
      key ∈ splitStream df cur targets gt t := by
  rw [splits_entry_eq_stream_all]
  exact Counter.count_nil_update_pos _ key

lemma mem_pairKeysOne_diff (t a b : Int) (ab : Int × Int) :
    ((a, b, SplitKind.Diff) : SplitKey) ∈ pairKeysOne t ab ↔
      |a - b| = t ∧ ab = (a, b) := by
  unfold pairKeysOne
  rw [List.mem_append]
  constructor
  · rintro (hk | hk)
    · by_cases hd : |ab.1 - ab.2| = t
      · rw [if_pos hd] at hk
        rcases List.mem_singleton.mp hk with hk2
        have h1 : ab.1 = a := by
          have := congrArg Prod.fst hk2
          simpa using this.symm
        have h2 : ab.2 = b := by
          have := congrArg (fun k : SplitKey => k.2.1) hk2
          simpa using this.symm
        refine ⟨by rw [← h1, ← h2]; exact hd, ?_⟩
        cases ab
        simp at h1 h2
        simp [h1, h2]
      · rw [if_neg hd] at hk
        simp at hk
    · by_cases hs : ab.1 + ab.2 = t
      · rw [if_pos hs] at hk
        exfalso
        rcases List.mem_singleton.mp hk with hk2
        have := congrArg (fun k : SplitKey => k.2.2) hk2
        simp at this
      · rw [if_neg hs] at hk
        simp at hk
  · rintro ⟨hd, rfl⟩
    left
    rw [if_pos (by simpa using hd)]
    simp

lemma mem_pairKeysOne_sum (t a b : Int) (ab : Int × Int) :
    ((a, b, SplitKind.Sum) : SplitKey) ∈ pairKeysOne t ab ↔
      a + b = t ∧ ab = (a, b) := by
  unfold pairKeysOne
  rw [List.mem_append]
  constructor
  · rintro (hk | hk)
    · by_cases hd : |ab.1 - ab.2| = t
      · rw [if_pos hd] at hk
        exfalso
        rcases List.mem_singleton.mp hk with hk2
        have := congrArg (fun k : SplitKey => k.2.2) hk2
        simp at this
      · rw [if_neg hd] at hk
        simp at hk
    · by_cases hs : ab.1 + ab.2 = t
      · rw [if_pos hs] at hk
        rcases List.mem_singleton.mp hk with hk2
        have h1 : ab.1 = a := by
          have := congrArg Prod.fst hk2
          simpa using this.symm
        have h2 : ab.2 = b := by
          have := congrArg (fun k : SplitKey => k.2.1) hk2
          simpa using this.symm
        refine ⟨by rw [← h1, ← h2]; exact hs, ?_⟩
        cases ab
        simp at h1 h2
        simp [h1, h2]
      · rw [if_neg hs] at hk
        simp at hk
  · rintro ⟨hs, rfl⟩
    right
    rw [if_pos (by simpa using hs)]
    simp

lemma mem_splitStream (df : DataFrame) (cur : List Int) (targets : List Int)
    (gt : GameType) (t : Int) (h : t ∈ targets) (key : SplitKey) :
    key ∈ splitStream df cur targets gt t ↔
      ∃ i, i < df.rows.length - 1 ∧
        isMatchRow df cur gt (df.rows.getD i default) = true ∧
        key ∈ pairKeys t (pairsOf (get_next_numbers_list df i gt)) := by
  unfold splitStream splitRowStream
  rw [List.mem_flatMap]
  have hm : targets.count t ≠ 0 := by
    intro hc
    exact (List.count_eq_zero.mp hc) h
  constructor
  · rintro ⟨i, hi, hk⟩
    rw [List.mem_range] at hi
    cases hmt : isMatchRow df cur gt (df.rows.getD i default)
    · rw [hmt] at hk
      simp at hk
    · rw [hmt] at hk
      simp only [if_true] at hk
      rw [List.mem_flatten] at hk
      rcases hk with ⟨l, hl, hkl⟩
      rcases (List.mem_replicate.mp hl) with ⟨_, rfl⟩
      exact ⟨i, hi, hmt, hkl⟩
  · rintro ⟨i, hi, hmt, hk⟩
    refine ⟨i, List.mem_range.mpr hi, ?_⟩
    rw [hmt]
    simp only [if_true]
    rw [List.mem_flatten]
    exact ⟨_, List.mem_replicate.mpr ⟨hm, rfl⟩, hk⟩

lemma mem_pairKeys_diff (t a b : Int) (pairs : List (Int × Int)) :
    ((a, b, SplitKind.Diff) : SplitKey) ∈ pairKeys t pairs ↔
      |a - b| = t ∧ (a, b) ∈ pairs := by
  unfold pairKeys
  rw [List.mem_flatMap]
  constructor
  · rintro ⟨ab, hab, hk⟩
    rcases (mem_pairKeysOne_diff t a b ab).mp hk with ⟨hd, rfl⟩
    exact ⟨hd, hab⟩
  · rintro ⟨hd, hab⟩
    exact ⟨(a, b), hab, (mem_pairKeysOne_diff t a b (a, b)).mpr ⟨hd, rfl⟩⟩

lemma mem_pairKeys_sum (t a b : Int) (pairs : List (Int × Int)) :
    ((a, b, SplitKind.Sum) : SplitKey) ∈ pairKeys t pairs ↔
      a + b = t ∧ (a, b) ∈ pairs := by
  unfold pairKeys
  rw [List.mem_flatMap]
  constructor
  · rintro ⟨ab, hab, hk⟩
    rcases (mem_pairKeysOne_sum t a b ab).mp hk with ⟨hs, rfl⟩
    exact ⟨hs, hab⟩
  · rintro ⟨hs, hab⟩
    exact ⟨(a, b), hab, (mem_pairKeysOne_sum t a b (a, b)).mpr ⟨hs, rfl⟩⟩

end BridgeLemmas

lemma get_next_numbers_list_eq_nil (df : DataFrame) (i : Nat) (gt : GameType)
    (h : df.rows.length ≤ i + 1) : get_next_numbers_list df i gt = [] := by
  unfold get_next_numbers_list
  rw [if_neg (by omega)]

/-- C1: the matching decision (the `is_match` boolean shared by both stages)
holds iff the intersection of the historical draw's full number set (bonus
included in variant B) with the set of numbers of `currentDraw` has size at
least 3, or, in variant B with more than 6 elements in `currentDraw`, the
row's bonus equals the last element of `currentDraw`; the two conditions
are a logical OR and nothing else affects the decision. (Stated for a
dataframe that has a `Bonus` column, so that the historical draw has a
bonus number at all.) -/
theorem claim_C1 (df : DataFrame) (cur : List Int) (gt : GameType) (row : Row)
    (h : df.hasBonus = true) :
    isMatchRow df cur gt row = true ↔
      (3 ≤ (cur.toFinset ∩ get_row_numbers df.hasBonus row gt).card ∨
        (gt = GameType.uk49 ∧ 6 < cur.length ∧ row.bonus = cur.getLastD 0)) := by
  unfold isMatchRow intersectionMatch bonusMatch match_threshold
  simp [h]

/-- Witness for C1 at a concrete variant-B input satisfying both rules. -/
theorem claim_C1_witness :
    dfEmptyB.hasBonus = true ∧
      (isMatchRow dfEmptyB [1, 2, 3, 4, 5, 6, 40]
          GameType.uk49 ⟨[1, 2, 3, 20, 21, 22], 40⟩ = true ↔
        (3 ≤ (([1, 2, 3, 4, 5, 6, 40] : List Int).toFinset ∩
            get_row_numbers dfEmptyB.hasBonus ⟨[1, 2, 3, 20, 21, 22], 40⟩
              GameType.uk49).card ∨
          (GameType.uk49 = GameType.uk49 ∧
            6 < ([1, 2, 3, 4, 5, 6, 40] : List Int).length ∧
            (⟨[1, 2, 3, 20, 21, 22], 40⟩ : Row).bonus =
              ([1, 2, 3, 4, 5, 6, 40] : List Int).getLastD 0))) :=
  ⟨rfl, claim_C1 _ _ _ _ rfl⟩

/-- C2: in `analyze_patterns` every scanned row contributes, to the count of
each number occurrence of the following draw, exactly 1 when the
intersection rule fires plus 2 when the bonus rule fires (so 3 when both),
additively and with no deduplication. -/
theorem claim_C2 (df : DataFrame) (cur : List Int) (gt : GameType) (x : Int) :
    Counter.count (analyze_patterns df cur gt) x =
      ((List.range (df.rows.length - 1)).map (fun i =>
        ((if intersectionMatch df.hasBonus cur (df.rows.getD i default) gt then 1 else 0) +
          (if bonusMatch df cur (df.rows.getD i default) gt then 2 else 0)) *
          (get_next_numbers_list df i gt).count x)).sum :=
  analyze_patterns_count df cur gt x

/-- C3: `analyze_splits` gives `(a, b, Diff)` a positive count under target
`t` iff `|a - b| = t` and `(a, b)` is a pair of the next draw of some
matching row, and `(a, b, Sum)` a positive count iff `a + b = t` likewise;
the two checks are independent and no entry appears when its equality
fails. -/
theorem claim_C3 (df : DataFrame) (cur targets : List Int) (gt : GameType)
    (t a b : Int) (h : t ∈ targets) :
    (0 < Counter.count (dictGet (analyze_splits df cur targets gt) t)
        (a, b, SplitKind.Diff) ↔
      |a - b| = t ∧ ∃ i, i < df.rows.length - 1 ∧
        isMatchRow df cur gt (df.rows.getD i default) = true ∧
        (a, b) ∈ pairsOf (get_next_numbers_list df i gt)) ∧
    (0 < Counter.count (dictGet (analyze_splits df cur targets gt) t)
        (a, b, SplitKind.Sum) ↔
      a + b = t ∧ ∃ i, i < df.rows.length - 1 ∧
        isMatchRow df cur gt (df.rows.getD i default) = true ∧
        (a, b) ∈ pairsOf (get_next_numbers_list df i gt)) := by
  constructor
  · rw [count_splits_entry_pos, mem_splitStream df cur targets gt t h]
    constructor
    · rintro ⟨i, hi, hmt, hk⟩
      rcases (mem_pairKeys_diff t a b _).mp hk with ⟨hd, hab⟩
      exact ⟨hd, i, hi, hmt, hab⟩
    · rintro ⟨hd, i, hi, hmt, hab⟩
      exact ⟨i, hi, hmt, (mem_pairKeys_diff t a b _).mpr ⟨hd, hab⟩⟩
  · rw [count_splits_entry_pos, mem_splitStream df cur targets gt t h]
    constructor
    · rintro ⟨i, hi, hmt, hk⟩
      rcases (mem_pairKeys_sum t a b _).mp hk with ⟨hs, hab⟩
      exact ⟨hs, i, hi, hmt, hab⟩
    · rintro ⟨hs, i, hi, hmt, hab⟩
      exact ⟨i, hi, hmt, (mem_pairKeys_sum t a b _).mpr ⟨hs, hab⟩⟩

/-- Witness for C3: target 10 with the pair `(4, 6)` as a Sum split. -/
theorem claim_C3_witness :
    (10 : Int) ∈ ([10] : List Int) ∧
      (0 < Counter.count
          (dictGet (analyze_splits dfScenarioA [2, 3, 4, 5, 9] [10]
            GameType.saDaily) 10) (4, 6, SplitKind.Sum) ↔
        (4 : Int) + 6 = 10 ∧ ∃ i,
          i < dfScenarioA.rows.length - 1 ∧
          isMatchRow dfScenarioA [2, 3, 4, 5, 9] GameType.saDaily
            (dfScenarioA.rows.getD i default) = true ∧
          ((4 : Int), (6 : Int)) ∈ pairsOf
            (get_next_numbers_list dfScenarioA i GameType.saDaily)) :=
  ⟨by decide, (claim_C3 _ _ _ _ _ _ _ (by decide)).2⟩

/-- C4: the concrete variant-A scenario: history `{1..5}, {2..6}, {3..7}`,
current `[2,3,4,5,9]`; `analyze_patterns` returns exactly the counter
`{2:1, 3:2, 4:2, 5:2, 6:2, 7:1}`. -/
theorem claim_C4 :
    analyze_patterns dfScenarioA [2, 3, 4, 5, 9] GameType.saDaily =
      [(2, 1), (3, 2), (4, 2), (5, 2), (6, 2), (7, 1)] := by
  decide

/-- C5: `analyze_splits` factors through the single `is_match` boolean of
each row: any two inputs whose rows agree on `is_match` and on the
following draws produce identical split statistics, so a row satisfying
both rules is processed exactly once, like a row satisfying only one. -/
theorem claim_C5 (df df' : DataFrame) (cur cur' : List Int) (targets : List Int)
    (gt gt' : GameType)
    (hl : df.rows.length = df'.rows.length)
    (hm : ∀ i, isMatchRow df cur gt (df.rows.getD i default) =
      isMatchRow df' cur' gt' (df'.rows.getD i default))
    (hn : ∀ i, get_next_numbers_list df i gt = get_next_numbers_list df' i gt') :
    analyze_splits df cur targets gt = analyze_splits df' cur' targets gt' := by
  unfold analyze_splits
  rw [← hl]
  apply List.foldl_ext
  intro ss i _
  simp only [splitRowStep]
  rw [hm i, hn i]

/-- Witness for C5: a row matching both rules (bonus 40) against a row
matching only the intersection rule (bonus 41), same successors: equal
split statistics. -/
theorem claim_C5_witness :
    dfBonusBoth.rows.length = dfBonusInterOnly.rows.length ∧
    analyze_splits dfBonusBoth [1, 2, 3, 4, 5, 6, 40] [13] GameType.uk49 =
      analyze_splits dfBonusInterOnly [1, 2, 3, 4, 5, 6, 40] [13] GameType.uk49 := by
  refine ⟨rfl, claim_C5 _ _ _ _ _ _ _ rfl ?_ ?_⟩
  · intro i
    match i with
    | 0 => decide
    | 1 => decide
    | (n + 2) =>
      have e1 : dfBonusBoth.rows.getD (n + 2) default = default :=
        List.getD_eq_default _ _ (by
          show dfBonusBoth.rows.length ≤ n + 2
          simp only [dfBonusBoth, List.length_cons, List.length_nil]
          omega)
      have e2 : dfBonusInterOnly.rows.getD (n + 2) default = default :=
        List.getD_eq_default _ _ (by
          show dfBonusInterOnly.rows.length ≤ n + 2
          simp only [dfBonusInterOnly, List.length_cons, List.length_nil]
          omega)
      rw [e1, e2]
      decide
  · intro i
    match i with
    | 0 => decide
    | (n + 1) =>
      rw [get_next_numbers_list_eq_nil dfBonusBoth (n + 1) GameType.uk49 (by
          simp only [dfBonusBoth, List.length_cons, List.length_nil]
          omega),
        get_next_numbers_list_eq_nil dfBonusInterOnly (n + 1) GameType.uk49 (by
          simp only [dfBonusInterOnly, List.length_cons, List.length_nil]
          omega)]

/-- C6: the ranked outputs of the reference flow: `most_common 7` over the
prediction counter and `most_common 3` over a target's split counter are
ordered by weight/count descending; ties keep the counter's insertion
order, which is first-seen order in the scan (the `keys = firstOcc stream`
conjuncts); the selection keeps at most K entries (K = 7 for targets, 3
for splits) and every omitted entry weighs no more than any kept one. -/
theorem claim_C6 (df : DataFrame) (cur : List Int) (gt : GameType) (t : Int) :
    (Counter.most_common (analyze_patterns df cur gt) 7).length ≤ 7 ∧
    (splits_flow df cur gt t).length ≤ 3 ∧
    (Counter.most_common (analyze_patterns df cur gt) 7).Pairwise
      (fun p q => q.2 ≤ p.2) ∧
    (splits_flow df cur gt t).Pairwise (fun p q => q.2 ≤ p.2) ∧
    (∀ p q, [p, q].Sublist (Counter.most_common (analyze_patterns df cur gt) 7) →
      p.2 = q.2 → [p, q].Sublist (analyze_patterns df cur gt)) ∧
    (∀ p q, [p, q].Sublist (splits_flow df cur gt t) → p.2 = q.2 →
      [p, q].Sublist
        (dictGet (analyze_splits df cur (top_targets_flow df cur gt) gt) t)) ∧
    (∀ p ∈ analyze_patterns df cur gt,
      p ∉ Counter.most_common (analyze_patterns df cur gt) 7 →
      ∀ q ∈ Counter.most_common (analyze_patterns df cur gt) 7, p.2 ≤ q.2) ∧
    (∀ p ∈ dictGet (analyze_splits df cur (top_targets_flow df cur gt) gt) t,
      p ∉ splits_flow df cur gt t → ∀ q ∈ splits_flow df cur gt t, p.2 ≤ q.2) ∧
    Counter.keys (analyze_patterns df cur gt) = firstOcc (patternStream df cur gt) ∧
    Counter.keys (dictGet (analyze_splits df cur (top_targets_flow df cur gt) gt) t) =
      firstOcc (splitStream df cur (top_targets_flow df cur gt) gt t) := by
  refine ⟨?_, ?_, ?_, ?_, ?_, ?_, ?_, ?_, ?_, ?_⟩
  · exact length_most_common _ 7
  · exact length_most_common _ 3
  · exact sorted_most_common _ 7
  · exact sorted_most_common _ 3
  · intro p q hpq heq
    exact stable_most_common _ (nodup_analyze_patterns df cur gt) 7 p q hpq heq
  · intro p q hpq heq
    exact stable_most_common _ (nodup_splits_entry df cur _ gt t) 3 p q hpq heq
  · intro p hp hpk q hq
    exact topK_most_common _ 7 p hp hpk q hq
  · intro p hp hpk q hq
    exact topK_most_common _ 3 p hp hpk q hq
  · exact keys_analyze_patterns df cur gt
  · exact keys_splits_entry df cur _ gt t

/-- C7: when no scanned row matches — in particular when the history has
fewer than 2 rows, making the scan range empty — `analyze_patterns`
returns the empty counter and `analyze_splits` gives every target an
empty counter; neither is an error. -/
theorem claim_C7 (df : DataFrame) (cur targets : List Int) (gt : GameType)
    (h : df.rows.length < 2 ∨ ∀ i, i < df.rows.length - 1 →
      isMatchRow df cur gt (df.rows.getD i default) = false) :
    analyze_patterns df cur gt = [] ∧
      ∀ t : Int, dictGet (analyze_splits df cur targets gt) t = [] := by
  have hall : ∀ i, i < df.rows.length - 1 →
      isMatchRow df cur gt (df.rows.getD i default) = false := by
    rcases h with h | h
    · intro i hi
      exact absurd hi (by omega)
    · exact h
  constructor
  · rw [analyze_patterns_eq_stream]
    have hps : patternStream df cur gt = [] := by
      unfold patternStream
      rw [List.flatMap_eq_nil_iff]
      intro i hi
      have hm := hall i (List.mem_range.mp hi)
      unfold isMatchRow at hm
      rcases Bool.or_eq_false_iff.mp hm with ⟨h1, h2⟩
      simp only [patternRowStream]
      rw [h1, h2]
      simp
    rw [hps]
    rfl
  · intro t
    rw [splits_entry_eq_stream_all]
    have hss : splitStream df cur targets gt t = [] := by
      unfold splitStream splitRowStream
      rw [List.flatMap_eq_nil_iff]
      intro i hi
      rw [hall i (List.mem_range.mp hi)]
      simp
    rw [hss]
    rfl

/-- Witness for C7 on an empty history. -/
theorem claim_C7_witness :
    dfEmpty.rows.length < 2 ∧
      analyze_patterns dfEmpty [1, 2, 3] GameType.saDaily = [] ∧
      dictGet (analyze_splits dfEmpty [1, 2, 3] [5] GameType.saDaily) 5 = [] :=
  ⟨by decide,
    (claim_C7 dfEmpty [1, 2, 3] [5] GameType.saDaily (Or.inl (by decide))).1,
    (claim_C7 dfEmpty [1, 2, 3] [5] GameType.saDaily (Or.inl (by decide))).2 5⟩

/-- C8: both engines use the same matching rule: a scanned row's per-number
weight in `analyze_patterns` (the closed form of its counts) is positive
iff the `is_match` boolean used by `analyze_splits` holds for that row. -/
theorem claim_C8 (df : DataFrame) (cur : List Int) (gt : GameType) :
    (∀ x : Int, Counter.count (analyze_patterns df cur gt) x =
      ((List.range (df.rows.length - 1)).map (fun i =>
        ((if intersectionMatch df.hasBonus cur (df.rows.getD i default) gt then 1 else 0) +
          (if bonusMatch df cur (df.rows.getD i default) gt then 2 else 0)) *
          (get_next_numbers_list df i gt).count x)).sum) ∧
    (∀ row : Row,
      (0 < (if intersectionMatch df.hasBonus cur row gt then 1 else 0) +
          (if bonusMatch df cur row gt then 2 else 0)) ↔
        isMatchRow df cur gt row = true) := by
  refine ⟨analyze_patterns_count df cur gt, ?_⟩
  intro row
  unfold isMatchRow
  cases h1 : intersectionMatch df.hasBonus cur row gt <;>
    cases h2 : bonusMatch df cur row gt <;> simp [h1, h2]

/-- C9: the key set of `analyze_splits` is exactly the given target list
(with unique keys), for every input — even an empty or matchless history. -/
theorem claim_C9 (df : DataFrame) (cur targets : List Int) (gt : GameType) :
    (∀ t : Int, t ∈ dictKeys (analyze_splits df cur targets gt) ↔ t ∈ targets) ∧
      (dictKeys (analyze_splits df cur targets gt)).Nodup := by
  constructor
  · intro t
    rw [dictKeys_analyze_splits, mem_dictKeys_dictInit]
  · rw [dictKeys_analyze_splits]
    exact nodup_dictKeys_dictInit targets

/-- C10: without a `Bonus` column the bonus rule never fires — even in
variant B with a long `currentDraw` — so matching falls back to the
intersection rule alone in both engines, and no error is raised (the
functions stay total and well-defined). -/
theorem claim_C10 (df : DataFrame) (cur : List Int) (gt : GameType)
    (h : df.hasBonus = false) :
    (∀ row : Row, bonusMatch df cur row gt = false) ∧
    (∀ row : Row, isMatchRow df cur gt row =
      intersectionMatch df.hasBonus cur row gt) ∧
    (∀ x : Int, Counter.count (analyze_patterns df cur gt) x =
      ((List.range (df.rows.length - 1)).map (fun i =>
        if intersectionMatch df.hasBonus cur (df.rows.getD i default) gt
          then (get_next_numbers_list df i gt).count x else 0)).sum) := by
  have hb : ∀ row : Row, bonusMatch df cur row gt = false := by
    intro row
    unfold bonusMatch
    simp [h]
  refine ⟨hb, ?_, ?_⟩
  · intro row
    unfold isMatchRow
    rw [hb row, Bool.or_false]
  · intro x
    rw [analyze_patterns_count]
    congr 1
    apply List.map_congr_left
    intro i _
    rw [hb _]
    cases h1 : intersectionMatch df.hasBonus cur (df.rows.getD i default) gt <;>
      simp [h1]

/-- Witness for C10: variant B, 7-element current draw, no `Bonus` column. -/
theorem claim_C10_witness :
    dfEmpty.hasBonus = false ∧
      bonusMatch dfEmpty [1, 2, 3, 4, 5, 6, 7]
        ⟨[1, 2, 3, 4, 5, 6], 7⟩ GameType.uk49 = false :=
  ⟨rfl, (claim_C10 dfEmpty [1, 2, 3, 4, 5, 6, 7] GameType.uk49 rfl).1 _⟩

end Lotto
